import Mathlib

/-!
Shallow embedding of the vue-form-controller library.

Source map:
* `getFieldErrors`  — src/src/validations/index.ts
* `createControl`   — src/unnamed/part_003 (control factory)
* `useForm` operations (`setValue`, `getValue`, `validateField`, `reset`,
  `handleSubmit`, `getIsDirty`, error/rule accessors) — src/unnamed/part_001
  (the current iteration of the form composable).

JavaScript runtime values are modelled by the inductive `Value`; lodash's
deep-path `get`/`set` by `getPath`/`setPath`; lodash `isEqual` by decidable
structural equality on `Value`; lodash `cloneDeep` is the identity on the
pure value level (a separate heap-level model `createControlRefs` makes
reference aliasing observable for the deep-copy claims).
-/

namespace VueFormController

mutual
/-- A JS-like runtime value: `undefined`, `null`, booleans, integers,
strings and plain objects (ordered key/value fields; JS objects have
unique keys).  Decidable structural equality on `Value` models lodash
`isEqual` (deep equality). -/
inductive Value where
  | vUndefined
  | vNull
  | vBool (b : Bool)
  | vNum (n : Int)
  | vStr (s : String)
  | vObj (fields : Fields)
deriving DecidableEq, Repr
/-- The field list of a JS object value. -/
inductive Fields where
  | fnil
  | fcons (key : String) (val : Value) (rest : Fields)
deriving DecidableEq, Repr
end

/-- `value?.toString()`: nullish values give `undefined` (`none`); other
values give their JS string form. -/
def jsToString : Value → Option String
  | .vUndefined => none
  | .vNull => none
  | .vBool b => some (if b then "true" else "false")
  | .vNum n => some (toString n)
  | .vStr s => some s
  | .vObj _ => some "[object Object]"

/-- `(value as unknown)?.toString()?.length || 0` from `getFieldErrors`. -/
def valueLength (v : Value) : Nat :=
  (jsToString v).elim 0 String.length

/-- The string handed to `new RegExp(pattern).test(value?.toString())`:
`RegExp.test` coerces `undefined` to the string `"undefined"`. -/
def regexInput (v : Value) : String :=
  (jsToString v).getD "undefined"

/-- `ControlRule<T>` from src/src/types.ts.  `pattern` is modelled by its
compiled test function `String → Bool`; `validate` takes the field value and
the optional form snapshot and may return a list of messages. -/
structure ControlRule where
  required : Option Bool := none
  minLength : Option Int := none
  maxLength : Option Int := none
  validate : Option (Value → Option Value → Option (List String)) := none
  pattern : Option (String → Bool) := none

/-- JS truthiness of an optional number (`undefined` and `0` are falsy). -/
def numTruthy : Option Int → Bool
  | none => false
  | some n => n != 0

/-- `` `The field may not be longer than ${maxLength} characters!` `` -/
def maxLengthMsg (n : Int) : String :=
  s!"The field may not be longer than {n} characters!"

/-- `` `The field may not be shorter than ${minLength} characters!` `` -/
def minLengthMsg (n : Int) : String :=
  s!"The field may not be shorter than {n} characters!"

/-- `controlRules.maxLength && valueLength > Number(controlRules.maxLength)` -/
def maxLengthFails (v : Value) (r : ControlRule) : Bool :=
  numTruthy r.maxLength && decide ((valueLength v : Int) > r.maxLength.getD 0)

/-- `controlRules.minLength && valueLength < Number(controlRules.minLength)` -/
def minLengthFails (v : Value) (r : ControlRule) : Bool :=
  numTruthy r.minLength && decide ((valueLength v : Int) < r.minLength.getD 0)

/-- `controlRules.pattern && !new RegExp(controlRules.pattern).test(...)` -/
def regexCheckFails (v : Value) (r : ControlRule) : Bool :=
  r.pattern.isSome && !(r.pattern.getD (fun _ => true)) (regexInput v)

/-- The built-in checks of `getFieldErrors` after the custom-validate
short-circuit: the `notFilled` branch, else max/min/pattern pushes in
source order. -/
def builtinErrors (v : Value) (r : ControlRule) : List String :=
  if r.required.getD false && (valueLength v == 0) then
    ["Field is required!"]
  else
    (if maxLengthFails v r then [maxLengthMsg (r.maxLength.getD 0)] else [])
      ++ (if minLengthFails v r then [minLengthMsg (r.minLength.getD 0)] else [])
      ++ (if regexCheckFails v r then ["The field did not match the expected pattern!"] else [])

/-- `getFieldErrors` from src/src/validations/index.ts. -/
def getFieldErrors (value : Value) (controlRules : Option ControlRule)
    (fieldValues : Option Value) : List String :=
  match controlRules with
  | none => []
  | some r =>
    match r.validate.bind (fun f => f value fieldValues) with
    | some customValidation => customValidation
    | none => builtinErrors value r

/-- The test function of the regular expression `/^[a-z]+$/`. -/
def lowercaseOnly (s : String) : Bool :=
  !s.isEmpty && s.toList.all (fun c => 'a' ≤ c && c ≤ 'z')

/-- Claim C1: if the rule is undefined, `getFieldErrors` returns the empty
list; otherwise, if `rule.validate` is defined and returns a defined list,
that list is returned verbatim (built-ins are skipped); otherwise, if
`rule.required` is true and the value's string-representation length is 0,
the result is exactly `["Field is required!"]`, with no other message. -/
theorem validator_shortCircuits (v : Value) (r : Option ControlRule) (fv : Option Value) :
    (r = none → getFieldErrors v r fv = []) ∧
    (∀ rr f l, r = some rr → rr.validate = some f → f v fv = some l →
      getFieldErrors v r fv = l) ∧
    (∀ rr, r = some rr → rr.validate.bind (fun g => g v fv) = none →
      rr.required = some true → valueLength v = 0 →
      getFieldErrors v r fv = ["Field is required!"]) := by
  refine ⟨?_, ?_, ?_⟩
  · rintro rfl; rfl
  · rintro rr f l rfl hf hl
    simp [getFieldErrors, hf, hl]
  · rintro rr rfl hbind hreq hlen
    simp [getFieldErrors, hbind, builtinErrors, hreq, hlen]

/-- Witness for C1: a rule with `required` and a failing `minLength` on the
empty string yields the required message alone. -/
theorem validator_shortCircuits_witness :
    getFieldErrors (Value.vStr "")
      (some { required := some true, minLength := some 3 }) none
      = ["Field is required!"] :=
  (validator_shortCircuits (Value.vStr "")
      (some { required := some true, minLength := some 3 }) none).2.2
    _ rfl rfl rfl rfl

/-- Claim C2: with no custom `validate` and the required-and-empty
short-circuit not taken, the result appends the max-length, min-length and
pattern messages in that fixed order, each present iff its check applies
and fails. -/
theorem validator_builtinOrder (v : Value) (rr : ControlRule) (fv : Option Value)
    (hval : rr.validate = none)
    (hreq : ¬(rr.required.getD false = true ∧ valueLength v = 0)) :
    getFieldErrors v (some rr) fv =
      (if maxLengthFails v rr then [maxLengthMsg (rr.maxLength.getD 0)] else [])
        ++ (if minLengthFails v rr then [minLengthMsg (rr.minLength.getD 0)] else [])
        ++ (if regexCheckFails v rr then ["The field did not match the expected pattern!"] else []) := by
  have hcond : (rr.required.getD false && (valueLength v == 0)) = false := by
    by_contra h
    rw [Bool.not_eq_false, Bool.and_eq_true, beq_iff_eq] at h
    exact hreq ⟨h.1, h.2⟩
  simp only [getFieldErrors, hval, Option.bind, builtinErrors, hcond,
    Bool.false_eq_true, if_false]

/-- Witness for C2, the concrete instance of the claim: `minLength = 5`,
`maxLength = 10`, pattern `/^[a-z]+$/`, value `"ab1"` produce exactly the
too-short and pattern-mismatch messages, in that order. -/
theorem validator_builtinOrder_witness :
    getFieldErrors (Value.vStr "ab1")
      (some { minLength := some 5, maxLength := some 10, pattern := some lowercaseOnly })
      none
      = ["The field may not be shorter than 5 characters!",
         "The field did not match the expected pattern!"] := by
  rw [validator_builtinOrder (Value.vStr "ab1")
      { minLength := some 5, maxLength := some 10, pattern := some lowercaseOnly }
      none rfl (by decide)]
  rfl

/-- Claim C9: a numeric bound set to `0` is tested for truthiness, so it is
treated exactly as an unset bound: the corresponding check never fires and
the validator's output coincides with the output for the rule with that
bound removed. -/
theorem zeroBound_disablesCheck (v : Value) (rr : ControlRule) (fv : Option Value) :
    (rr.maxLength = some 0 →
      maxLengthFails v rr = false ∧
      getFieldErrors v (some rr) fv
        = getFieldErrors v (some { rr with maxLength := none }) fv) ∧
    (rr.minLength = some 0 →
      minLengthFails v rr = false ∧
      getFieldErrors v (some rr) fv
        = getFieldErrors v (some { rr with minLength := none }) fv) := by
  constructor
  · intro h
    refine ⟨by simp [maxLengthFails, numTruthy, h], ?_⟩
    simp [getFieldErrors, builtinErrors, maxLengthFails, minLengthFails,
      regexCheckFails, numTruthy, h]
  · intro h
    refine ⟨by simp [minLengthFails, numTruthy, h], ?_⟩
    simp [getFieldErrors, builtinErrors, maxLengthFails, minLengthFails,
      regexCheckFails, numTruthy, h]

/-- Witness for C9: with both bounds set to `0` and a value of length 3,
neither bound check fires. -/
theorem zeroBound_disablesCheck_witness :
    maxLengthFails (Value.vStr "abc") { maxLength := some 0, minLength := some 0 } = false ∧
    minLengthFails (Value.vStr "abc") { maxLength := some 0, minLength := some 0 } = false :=
  ⟨((zeroBound_disablesCheck (Value.vStr "abc")
      { maxLength := some 0, minLength := some 0 } none).1 rfl).1,
   ((zeroBound_disablesCheck (Value.vStr "abc")
      { maxLength := some 0, minLength := some 0 } none).2 rfl).1⟩

/-! ## Deep paths and the deep-path utility (lodash `get`/`set`) -/

/-- A path is modelled as its list of segments (the code uses dot-separated
path strings, split by the deep-path utility). -/
abbrev Path := List String

/-- Field lookup in a JS object (objects have unique keys). -/
def Fields.lookup (k : String) : Fields → Option Value
  | .fnil => none
  | .fcons k2 v rest => if k2 = k then some v else Fields.lookup k rest

/-- Assignment `obj[k] = v`: overwrite in place, append if absent
(JS objects keep insertion order). -/
def Fields.insert (k : String) (nv : Value) : Fields → Fields
  | .fnil => .fcons k nv .fnil
  | .fcons k2 v rest =>
      if k2 = k then .fcons k nv rest else .fcons k2 v (Fields.insert k nv rest)

/-- lodash `get(obj, path)`: walk the segments, `undefined` on any miss or
non-object intermediate. -/
def getPath : Path → Value → Value
  | [], v => v
  | k :: rest, .vObj fs =>
      match fs.lookup k with
      | some v2 => getPath rest v2
      | none => .vUndefined
  | _ :: _, _ => .vUndefined

/-- lodash `set` within an object's fields: the last segment assigns; a
missing or non-object intermediate is replaced by a fresh empty object. -/
def setPathFields : Path → Value → Fields → Fields
  | [], _, fs => fs
  | [k], nv, fs => fs.insert k nv
  | k :: k2 :: rest, nv, fs =>
      let child : Fields :=
        match fs.lookup k with
        | some (.vObj cfs) => cfs
        | _ => .fnil
      fs.insert k (.vObj (setPathFields (k2 :: rest) nv child))

/-- lodash `set(obj, path, value)`: a non-object root is returned
unchanged. -/
def setPath (p : Path) (nv : Value) : Value → Value
  | .vObj fs => .vObj (setPathFields p nv fs)
  | v => v

/-! ## Control factory and form state (src/unnamed/part_003, part_001) -/

/-- `ValidationMode` from src/src/types.ts. -/
inductive ValidationMode where
  | onBlur
  | onChange
  | onSubmit
  | all
deriving DecidableEq, Repr

/-- Association-list lookup keyed by `Path` (models indexing a JS object
keyed by path strings). -/
def lookupKey {β : Type} (k : Path) : List (Path × β) → Option β
  | [] => none
  | kv :: rest => if kv.1 = k then some kv.2 else lookupKey k rest

/-- Keyed assignment: overwrite the key in place, append if absent. -/
def updateKey {β : Type} (k : Path) (v : β) : List (Path × β) → List (Path × β)
  | [] => [(k, v)]
  | kv :: rest => if kv.1 = k then (k, v) :: rest else kv :: updateKey k v rest

/-- JS `delete obj[k]`. -/
def eraseKey {β : Type} (k : Path) (l : List (Path × β)) : List (Path × β) :=
  l.filter (fun kv => kv.1 != k)

/-- `CreateControl<T>` from src/src/types.ts: the mutable form-state
record. -/
structure CreateControl where
  defaultValues : Value
  reValidateMode : ValidationMode
  formValues : Value
  fieldErrors : List (Path × List String)
  rules : List (Path × ControlRule)

/-- `createControl` from src/unnamed/part_003 at the value level:
`defaultValues ?? {}` into both value fields (`cloneDeep` is the identity
on pure values), empty `fieldErrors`, `rules ?? {}`. -/
def createControl (defaultValues : Option Value) (reValidateMode : ValidationMode)
    (rules : Option (List (Path × ControlRule))) : CreateControl :=
  { defaultValues := defaultValues.getD (.vObj .fnil)
    reValidateMode := reValidateMode
    formValues := defaultValues.getD (.vObj .fnil)
    fieldErrors := []
    rules := rules.getD [] }

/-- `UseFormProps<T>` from src/src/types.ts. -/
structure UseFormProps where
  defaultValues : Option Value
  reValidateMode : Option ValidationMode

/-- `SetValueOptions` from src/src/types.ts; both members are optional. -/
structure SetValueOptions where
  shouldValidate : Option Bool := none
  deepValidate : Option Bool := none

/-- The state owned by one `useForm` call (src/unnamed/part_001): the
captured props (reused by `reset`), the control record and the
`isSubmitting` flag. -/
structure FormState where
  props : Option UseFormProps
  control : CreateControl
  isSubmitting : Bool

/-- `useForm(props)`: builds the initial record via
`createControl(props?.defaultValues, props?.reValidateMode || "onSubmit")`. -/
def useForm (props : Option UseFormProps) : FormState :=
  { props := props
    control := createControl (props.bind (·.defaultValues))
      ((props.bind (·.reValidateMode)).getD .onSubmit) none
    isSubmitting := false }

/-- `getValue(name)` — lodash `get` on `formValues`. -/
def getValue (s : FormState) (name : Path) : Value :=
  getPath name s.control.formValues

/-- `clearError(name)` — `delete control.value.fieldErrors[name]`. -/
def clearError (s : FormState) (name : Path) : FormState :=
  { s with control.fieldErrors := eraseKey name s.control.fieldErrors }

/-- `setError(name, error)` — `control.value.fieldErrors[name] = error`. -/
def setError (s : FormState) (name : Path) (error : List String) : FormState :=
  { s with control.fieldErrors := updateKey name error s.control.fieldErrors }

/-- `setErrors(errors)` — replaces the whole error map. -/
def setErrors (s : FormState) (errors : List (Path × List String)) : FormState :=
  { s with control.fieldErrors := errors }

/-- `getError(name)`. -/
def getError (s : FormState) (name : Path) : Option (List String) :=
  lookupKey name s.control.fieldErrors

/-- `getRule(name)`. -/
def getRule (s : FormState) (name : Path) : Option ControlRule :=
  lookupKey name s.control.rules

/-- `getIsDirty(name)` — `!isEqual(getValue(name), get(defaultValues, name))`. -/
def getIsDirty (s : FormState) (name : Path) : Bool :=
  !decide (getValue s name = getPath name s.control.defaultValues)

/-- `isDirty` — `!isEqual(formValues, defaultValues)` (whole record). -/
def isDirty (s : FormState) : Bool :=
  !decide (s.control.formValues = s.control.defaultValues)

/-- `getCurrentFieldErrors(name)` — the Validator on the current value, the
current rule and the full `formValues` snapshot. -/
def getCurrentFieldErrors (s : FormState) (name : Path) : List String :=
  getFieldErrors (getValue s name) (getRule s name) (some s.control.formValues)

/-- `validateField(name)`: returns the error list and the resulting state
(`clearError` + `[]` when validation is clean, `setError` otherwise). -/
def validateField (s : FormState) (name : Path) : List String × FormState :=
  let errors := getCurrentFieldErrors s name
  if errors.isEmpty then ([], clearError s name)
  else (errors, setError s name errors)

/-- The write half of `setValue`: resolve an updater function against the
previous value, then lodash-`set` into `formValues`. -/
def writeValue (s : FormState) (name : Path) (value : Value ⊕ (Value → Value)) : FormState :=
  let newValue :=
    match value with
    | .inl v => v
    | .inr f => f (getValue s name)
  { s with control.formValues := setPath name newValue s.control.formValues }

/-- `setValue(name, value, options = \x7b shouldValidate: true \x7d)`:
the default options object applies only when the argument is omitted
(`none`); after the write, revalidate the path iff `options?.shouldValidate`
is truthy and the revalidate mode is `all` or `onChange`. -/
def setValue (s : FormState) (name : Path) (value : Value ⊕ (Value → Value))
    (options : Option SetValueOptions) : FormState :=
  let s1 := writeValue s name value
  let opts := options.getD { shouldValidate := some true }
  if opts.shouldValidate.getD false
      && (decide (s1.control.reValidateMode = .all)
          || decide (s1.control.reValidateMode = .onChange)) then
    (validateField s1 name).2
  else s1

/-- `reset(defaultValues)`: a fresh record via the control factory, reusing
the captured props' mode and carrying the current rule map forward. -/
def reset (s : FormState) (defaultValues : Value) : FormState :=
  let c := createControl (some defaultValues)
    ((s.props.bind (·.reValidateMode)).getD .onSubmit) (some s.control.rules)
  { s with control := c }

/-! ## handleSubmit (src/unnamed/part_001) -/

/-- The observable calls `handleSubmit` makes, in order: `setErrors`, the
optional `onError` callback, writes to the `isSubmitting` ref, and the
`onSubmit` callback with the value snapshot it receives. -/
inductive SubmitAction where
  | callSetErrors (errors : List (Path × List String))
  | callOnError (errors : List (Path × List String))
  | setSubmitting (b : Bool)
  | callOnSubmit (data : Value)

/-- The error map `handleSubmit` builds: iterate the rule map's keys and
keep exactly the paths whose current validation is non-empty. -/
def submitErrors (s : FormState) : List (Path × List String) :=
  s.control.rules.filterMap (fun kv =>
    let errors := getCurrentFieldErrors s kv.1
    if errors.isEmpty then none else some (kv.1, errors))

/-- `handleSubmit(onSubmit, onError?)`.  `onSubmitThrows` abstracts whether
the awaited `onSubmit` call throws/rejects; the third component reports
whether that exception propagates to the caller.  The first component is
the ordered trace of observable calls. -/
def handleSubmit (s : FormState) (onSubmitThrows : Bool) :
    List SubmitAction × FormState × Bool :=
  let fieldValues := s.control.formValues
  let controlErrors := submitErrors s
  let s1 := setErrors s controlErrors
  if controlErrors.isEmpty then
    ([.callSetErrors controlErrors, .setSubmitting true, .callOnSubmit fieldValues,
      .setSubmitting false],
     { s1 with isSubmitting := false }, onSubmitThrows)
  else
    ([.callSetErrors controlErrors, .callOnError controlErrors], s1, false)

/-! ## Heap-level model of the control factory (for the deep-copy claim)

On pure values `cloneDeep` is invisible, so reference aliasing is modelled
explicitly: a `Heap` holds one cell per JS object reference, and
`createControlRefs` records which reference each field of the control
record stores. -/

/-- A heap of JS objects: one cell per object reference (locations are
indices). -/
structure Heap where
  cells : List Value

/-- Dereference a location. -/
def Heap.read (h : Heap) (l : Nat) : Value :=
  h.cells.getD l .vUndefined

/-- Mutate the object behind a reference (covers mutation of any nested
part of it, since a cell owns its whole value tree). -/
def Heap.write (h : Heap) (l : Nat) (v : Value) : Heap :=
  ⟨h.cells.set l v⟩

/-- Allocate a fresh object. -/
def Heap.alloc (h : Heap) (v : Value) : Heap × Nat :=
  (⟨h.cells ++ [v]⟩, h.cells.length)

/-- The control record at the reference level: which object reference each
of the two value fields stores. -/
structure ControlRecordRefs where
  defaultValuesLoc : Nat
  reValidateMode : ValidationMode
  formValuesLoc : Nat
  fieldErrors : List (Path × List String)
  rules : List (Path × ControlRule)

/-- `createControl` from src/unnamed/part_003 at the reference level:
`defaultValues: defaultValues ?? {}` stores the caller's reference itself
(no copy is made), while `formValues: cloneDeep(defaultValues ?? {})`
allocates a fresh object holding a deep copy of the caller's value. -/
def createControlRefs (h : Heap) (defaultValues : Option Nat) (mode : ValidationMode)
    (rules : Option (List (Path × ControlRule))) : Heap × ControlRecordRefs :=
  match defaultValues with
  | some l =>
    let a := h.alloc (h.read l)
    (a.1, ⟨l, mode, a.2, [], rules.getD []⟩)
  | none =>
    let a1 := h.alloc (.vObj .fnil)
    let a2 := a1.1.alloc (.vObj .fnil)
    (a2.1, ⟨a1.2, mode, a2.2, [], rules.getD []⟩)

/-- The caller's heap used by the factory examples: one object
`\x7b a: 1 \x7d` at location 0. -/
def callerHeap : Heap :=
  ⟨[Value.vObj (.fcons "a" (.vNum 1) .fnil)]⟩

/-! ## Helper lemmas -/

theorem lookupKey_updateKey_self {β : Type} (k : Path) (v : β) :
    ∀ l : List (Path × β), lookupKey k (updateKey k v l) = some v
  | [] => by simp [updateKey, lookupKey]
  | kv :: rest => by
    by_cases h : kv.1 = k
    · simp [updateKey, h, lookupKey]
    · simp [updateKey, h, lookupKey, lookupKey_updateKey_self k v rest]

theorem lookupKey_eraseKey_self {β : Type} (k : Path) :
    ∀ l : List (Path × β), lookupKey k (eraseKey k l) = none
  | [] => rfl
  | kv :: rest => by
    by_cases h : kv.1 = k
    · simpa [eraseKey, List.filter_cons, h] using lookupKey_eraseKey_self k rest
    · simpa [eraseKey, List.filter_cons, h, lookupKey] using lookupKey_eraseKey_self k rest

theorem Fields.lookup_insert_self (k : String) (nv : Value) :
    ∀ fs : Fields, (fs.insert k nv).lookup k = some nv
  | .fnil => by simp [Fields.insert, Fields.lookup]
  | .fcons k2 v rest => by
    by_cases h : k2 = k
    · simp [Fields.insert, h, Fields.lookup]
    · simp [Fields.insert, h, Fields.lookup, Fields.lookup_insert_self k nv rest]

theorem getPath_setPathFields : ∀ (p : Path) (nv : Value) (fs : Fields), p ≠ [] →
    getPath p (.vObj (setPathFields p nv fs)) = nv
  | [], _, _, h => absurd rfl h
  | [k], nv, fs, _ => by
    simp [setPathFields, getPath, Fields.lookup_insert_self]
  | k :: k2 :: rest, nv, fs, _ => by
    simp only [setPathFields, getPath, Fields.lookup_insert_self]
    exact getPath_setPathFields (k2 :: rest) nv _ (by simp)

theorem getPath_setPath (p : Path) (nv : Value) (fs : Fields) (hp : p ≠ []) :
    getPath p (setPath p nv (.vObj fs)) = nv := by
  simpa [setPath] using getPath_setPathFields p nv fs hp

theorem validateField_formValues (s : FormState) (name : Path) :
    (validateField s name).2.control.formValues = s.control.formValues := by
  simp only [validateField]
  split <;> rfl

theorem validateField_defaultValues (s : FormState) (name : Path) :
    (validateField s name).2.control.defaultValues = s.control.defaultValues := by
  simp only [validateField]
  split <;> rfl

theorem setValue_formValues (s : FormState) (name : Path) (value : Value ⊕ (Value → Value))
    (opts : Option SetValueOptions) :
    (setValue s name value opts).control.formValues
      = (writeValue s name value).control.formValues := by
  simp only [setValue]
  split
  · exact validateField_formValues _ _
  · rfl

theorem setValue_defaultValues (s : FormState) (name : Path) (value : Value ⊕ (Value → Value))
    (opts : Option SetValueOptions) :
    (setValue s name value opts).control.defaultValues = s.control.defaultValues := by
  simp only [setValue]
  split
  · exact validateField_defaultValues _ _
  · rfl

theorem isEmpty_false_of_ne_nil {α : Type} {l : List α} (h : l ≠ []) : l.isEmpty = false := by
  cases l
  · exact absurd rfl h
  · rfl

theorem Heap.read_alloc_self (h : Heap) (v : Value) :
    (h.alloc v).1.read (h.alloc v).2 = v := by
  simp [Heap.alloc, Heap.read, List.getD_eq_getElem?_getD, List.getElem?_concat_length]

theorem Heap.read_write_ne (h : Heap) (l n : Nat) (v : Value) (hn : l ≠ n) :
    (h.write l v).read n = h.read n := by
  simp [Heap.write, Heap.read, List.getD_eq_getElem?_getD, List.getElem?_set_ne hn]

/-! ## Claim theorems for the form state manager -/

/-- Claim C5: `validateField(path)` runs the Validator on the current
value, the current rule and the full `formValues` snapshot; on an empty
result it removes the error entry and returns the empty list, otherwise it
stores the list and returns it; hence on a rule-less path it returns the
empty list and `getError` stays absent. -/
theorem validateField_spec (s : FormState) (name : Path) :
    getCurrentFieldErrors s name
        = getFieldErrors (getValue s name) (getRule s name) (some s.control.formValues) ∧
    (validateField s name).1 = getCurrentFieldErrors s name ∧
    (validateField s name).2
        = (if getCurrentFieldErrors s name = [] then clearError s name
           else setError s name (getCurrentFieldErrors s name)) ∧
    getError (validateField s name).2 name
        = (if getCurrentFieldErrors s name = [] then none
           else some (getCurrentFieldErrors s name)) ∧
    (getRule s name = none →
      (validateField s name).1 = [] ∧ getError (validateField s name).2 name = none) := by
  have hgr : getRule s name = none → getCurrentFieldErrors s name = [] := by
    intro hrule
    simp [getCurrentFieldErrors, hrule, getFieldErrors]
  by_cases hg : getCurrentFieldErrors s name = []
  · have hie : (getCurrentFieldErrors s name).isEmpty = true := by rw [hg]; rfl
    refine ⟨rfl, ?_, ?_, ?_, fun _ => ⟨?_, ?_⟩⟩
    · simp [validateField, hie, hg]
    · simp [validateField, hie, hg]
    · simp [validateField, hie, hg, getError, clearError, lookupKey_eraseKey_self]
    · simp [validateField, hie, hg]
    · simp [validateField, hie, hg, getError, clearError, lookupKey_eraseKey_self]
  · have hie : (getCurrentFieldErrors s name).isEmpty = false := isEmpty_false_of_ne_nil hg
    refine ⟨rfl, ?_, ?_, ?_, fun hrule => absurd (hgr hrule) hg⟩
    · simp [validateField, hie]
    · simp [validateField, hie, hg]
    · simp [validateField, hie, hg, getError, setError, lookupKey_updateKey_self]

/-- Witness for C5: on a freshly constructed form with no rules,
`validateField` on any path returns the empty list and leaves no error
entry. -/
theorem validateField_spec_witness :
    (validateField (useForm none) ["x"]).1 = [] ∧
    getError (validateField (useForm none) ["x"]).2 ["x"] = none :=
  (validateField_spec (useForm none) ["x"]).2.2.2.2 rfl

/-- Claim C3: when validating at least one rule-bearing path yields a
non-empty error list, `handleSubmit` never invokes `onSubmit`, calls
`setErrors` with the map holding exactly the paths whose validation failed
(replacing the whole error map), invokes `onError` with that same map,
never writes the `isSubmitting` flag, and lets no exception propagate. -/
theorem handleSubmit_onError_spec (s : FormState) (thr : Bool)
    (h : ∃ kv ∈ s.control.rules, getCurrentFieldErrors s kv.1 ≠ []) :
    (handleSubmit s thr).1
        = [SubmitAction.callSetErrors (submitErrors s),
           SubmitAction.callOnError (submitErrors s)] ∧
    (∀ d, SubmitAction.callOnSubmit d ∉ (handleSubmit s thr).1) ∧
    (∀ b, SubmitAction.setSubmitting b ∉ (handleSubmit s thr).1) ∧
    (handleSubmit s thr).2.1.control.fieldErrors = submitErrors s ∧
    (handleSubmit s thr).2.1.isSubmitting = s.isSubmitting ∧
    (handleSubmit s thr).2.2 = false ∧
    (∀ p es, (p, es) ∈ submitErrors s ↔
      ((∃ rr, (p, rr) ∈ s.control.rules) ∧ es = getCurrentFieldErrors s p ∧ es ≠ [])) := by
  obtain ⟨kv, hkv, hne⟩ := h
  have hmem : (kv.1, getCurrentFieldErrors s kv.1) ∈ submitErrors s := by
    refine List.mem_filterMap.mpr ⟨kv, hkv, ?_⟩
    simp [isEmpty_false_of_ne_nil hne]
  have hie : (submitErrors s).isEmpty = false :=
    isEmpty_false_of_ne_nil (List.ne_nil_of_mem hmem)
  have hchar : ∀ p es, (p, es) ∈ submitErrors s ↔
      ((∃ rr, (p, rr) ∈ s.control.rules) ∧ es = getCurrentFieldErrors s p ∧ es ≠ []) := by
    intro p es
    constructor
    · intro hpes
      obtain ⟨⟨a1, a2⟩, ha, hfa⟩ := List.mem_filterMap.mp hpes
      simp only at hfa
      by_cases hae : (getCurrentFieldErrors s a1).isEmpty = true
      · rw [if_pos hae] at hfa
        exact absurd hfa (by simp)
      · rw [if_neg hae] at hfa
        injection hfa with hfa2
        rw [Prod.mk.injEq] at hfa2
        obtain ⟨rfl, rfl⟩ := hfa2
        refine ⟨⟨a2, ha⟩, rfl, ?_⟩
        intro hnil
        rw [hnil] at hae
        exact hae rfl
    · rintro ⟨⟨rr, hmem2⟩, rfl, hne2⟩
      refine List.mem_filterMap.mpr ⟨(p, rr), hmem2, ?_⟩
      simp [isEmpty_false_of_ne_nil hne2]
  refine ⟨?_, ?_, ?_, ?_, ?_, ?_, hchar⟩ <;>
    simp [handleSubmit, hie, setErrors]

/-- A rule requiring a non-empty value, used by the concrete submit
examples. -/
def requiredRule : ControlRule :=
  { required := some true }

/-- A form state whose single rule-bearing path `a` has no value, so its
`required` validation fails. -/
def exampleFailState : FormState :=
  { props := none
    control :=
      { defaultValues := .vObj .fnil
        reValidateMode := .onSubmit
        formValues := .vObj .fnil
        fieldErrors := []
        rules := [(["a"], requiredRule)] }
    isSubmitting := false }

/-- Witness for C3: submitting `exampleFailState` never calls `onSubmit`,
stores exactly the failing path's errors and leaves `isSubmitting` false. -/
theorem handleSubmit_onError_witness :
    (∀ d, SubmitAction.callOnSubmit d ∉ (handleSubmit exampleFailState false).1) ∧
    (handleSubmit exampleFailState false).2.1.control.fieldErrors
      = [(["a"], ["Field is required!"])] ∧
    (handleSubmit exampleFailState false).2.1.isSubmitting = false := by
  have h := handleSubmit_onError_spec exampleFailState false
    ⟨(["a"], requiredRule), List.Mem.head _, by decide⟩
  refine ⟨h.2.1, ?_, h.2.2.2.2.1⟩
  rw [h.2.2.2.1]
  decide

/-- Claim C4: when every rule-bearing path validates clean, `handleSubmit`
calls `setErrors` with the empty map, sets `isSubmitting` true, invokes
`onSubmit` with the full current `formValues` snapshot and resets
`isSubmitting` to false in the cleanup block, with any exception from
`onSubmit` propagating to the caller. -/
theorem handleSubmit_success_spec (s : FormState) (thr : Bool)
    (h : ∀ kv ∈ s.control.rules, getCurrentFieldErrors s kv.1 = []) :
    handleSubmit s thr
      = ([SubmitAction.callSetErrors [], SubmitAction.setSubmitting true,
          SubmitAction.callOnSubmit s.control.formValues, SubmitAction.setSubmitting false],
         { setErrors s [] with isSubmitting := false }, thr) ∧
    (handleSubmit s thr).2.1.isSubmitting = false ∧
    (handleSubmit s thr).2.1.control.fieldErrors = [] := by
  have hse : submitErrors s = [] := by
    rw [submitErrors, List.filterMap_eq_nil_iff]
    intro kv hkv
    simp [h kv hkv]
  refine ⟨?_, ?_, ?_⟩ <;> simp [handleSubmit, hse, setErrors]

/-- A form state whose single rule-bearing path `a` holds a value, so its
`required` validation passes; a stale error on `b` shows the whole error
map being replaced. -/
def exampleOkState : FormState :=
  { props := none
    control :=
      { defaultValues := .vObj .fnil
        reValidateMode := .onSubmit
        formValues := .vObj (.fcons "a" (.vStr "hi") .fnil)
        fieldErrors := [(["b"], ["stale"])]
        rules := [(["a"], requiredRule)] }
    isSubmitting := false }

/-- Witness for C4: submitting `exampleOkState` with a throwing `onSubmit`
produces the false→true→false submitting trace around the snapshot call,
clears the error map, and propagates the exception. -/
theorem handleSubmit_success_witness :
    (handleSubmit exampleOkState true).1
      = [SubmitAction.callSetErrors [], SubmitAction.setSubmitting true,
         SubmitAction.callOnSubmit (Value.vObj (.fcons "a" (.vStr "hi") .fnil)),
         SubmitAction.setSubmitting false] ∧
    (handleSubmit exampleOkState true).2.1.control.fieldErrors = [] ∧
    (handleSubmit exampleOkState true).2.2 = true := by
  have h := handleSubmit_success_spec exampleOkState true (by decide)
  exact ⟨by rw [h.1]; rfl, h.2.2, by rw [h.1]⟩


/-- Claim C6: `reset(newDefaults)` builds a fresh record in which both
`formValues` and `defaultValues` equal `newDefaults`, `fieldErrors` is
empty, the previous rule map is carried forward unchanged, and `isDirty`
is false immediately afterwards. -/
theorem reset_spec (s : FormState) (newDefaults : Value) :
    (reset s newDefaults).control.formValues = newDefaults ∧
    (reset s newDefaults).control.defaultValues = newDefaults ∧
    (reset s newDefaults).control.fieldErrors = [] ∧
    (reset s newDefaults).control.rules = s.control.rules ∧
    isDirty (reset s newDefaults) = false := by
  refine ⟨rfl, rfl, rfl, rfl, ?_⟩
  simp [isDirty, reset, createControl]

/-- Claim C8: `getIsDirty(path)` is true iff the current value at the path
is not deep-equal to the default value there; it is false right after
construction and after `reset`, and after `setValue` at a nonempty path it
reflects exactly whether the written value differs from the default (so a
change away from the default makes it true, writing the default back makes
it false). -/
theorem getIsDirty_spec :
    (∀ s name, getIsDirty s name
        = !decide (getValue s name = getPath name s.control.defaultValues)) ∧
    (∀ props name, getIsDirty (useForm props) name = false) ∧
    (∀ s nd name, getIsDirty (reset s nd) name = false) ∧
    (∀ s name v opts fs, s.control.formValues = Value.vObj fs → name ≠ [] →
      getIsDirty (setValue s name (Sum.inl v) opts) name
        = !decide (v = getPath name s.control.defaultValues)) := by
  refine ⟨fun s name => rfl, ?_, ?_, ?_⟩
  · intro props name
    simp [getIsDirty, useForm, createControl, getValue]
  · intro s nd name
    simp [getIsDirty, reset, createControl, getValue]
  · intro s name v opts fs hfs hname
    have h1 : getValue (setValue s name (Sum.inl v) opts) name = v := by
      rw [getValue, setValue_formValues]
      show getPath name (setPath name v s.control.formValues) = v
      rw [hfs]
      exact getPath_setPath name v fs hname
    rw [getIsDirty, h1, setValue_defaultValues]

/-- An empty form state used by the dirtiness witness. -/
def emptyFormState : FormState :=
  { props := none
    control :=
      { defaultValues := .vObj .fnil
        reValidateMode := .onSubmit
        formValues := .vObj .fnil
        fieldErrors := []
        rules := [] }
    isSubmitting := false }

/-- Witness for C8: writing `2` at path `a` of the empty form (default
`undefined` there) makes the path dirty. -/
theorem getIsDirty_spec_witness :
    getIsDirty (setValue emptyFormState ["a"] (Sum.inl (Value.vNum 2)) none) ["a"] = true := by
  have h := getIsDirty_spec.2.2.2 emptyFormState ["a"] (Value.vNum 2) none .fnil rfl (by decide)
  rw [h]
  decide

/-- Claim C10: the `\x7b shouldValidate: true \x7d` default of `setValue`
applies only when the options argument is omitted entirely; any explicit
options object whose `shouldValidate` is absent or false writes the value
but skips the immediate revalidation, whatever the revalidate mode. -/
theorem setValue_options_spec (s : FormState) (name : Path) (v : Value)
    (opts : SetValueOptions) :
    (setValue s name (Sum.inl v) none
        = if s.control.reValidateMode = ValidationMode.all
              ∨ s.control.reValidateMode = ValidationMode.onChange
          then (validateField (writeValue s name (Sum.inl v)) name).2
          else writeValue s name (Sum.inl v)) ∧
    (opts.shouldValidate = none ∨ opts.shouldValidate = some false →
      setValue s name (Sum.inl v) (some opts) = writeValue s name (Sum.inl v)) := by
  have hmode : (writeValue s name (Sum.inl v)).control.reValidateMode
      = s.control.reValidateMode := rfl
  constructor
  · by_cases h : s.control.reValidateMode = ValidationMode.all
        ∨ s.control.reValidateMode = ValidationMode.onChange
    · rw [if_pos h]
      have hb : (decide ((writeValue s name (Sum.inl v)).control.reValidateMode
              = ValidationMode.all)
            || decide ((writeValue s name (Sum.inl v)).control.reValidateMode
              = ValidationMode.onChange)) = true := by
        rw [hmode]
        rcases h with h | h <;> simp [h]
      simp only [setValue]
      rw [hb]
      simp
    · rw [if_neg h]
      rw [not_or] at h
      have hb : (decide ((writeValue s name (Sum.inl v)).control.reValidateMode
              = ValidationMode.all)
            || decide ((writeValue s name (Sum.inl v)).control.reValidateMode
              = ValidationMode.onChange)) = false := by
        rw [hmode]
        simp [h.1, h.2]
      simp only [setValue]
      rw [hb]
      simp
  · intro h
    rcases h with h | h <;> simp [setValue, h]

/-- A form with revalidate mode `onChange`, for the options witness. -/
def exampleOnChangeState : FormState :=
  { props := none
    control :=
      { defaultValues := .vObj .fnil
        reValidateMode := .onChange
        formValues := .vObj .fnil
        fieldErrors := []
        rules := [] }
    isSubmitting := false }

/-- Witness for C10: the claim's example — an explicit
`\x7b deepValidate: true \x7d` options object (no `shouldValidate`) skips
revalidation even under mode `onChange`. -/
theorem setValue_options_witness :
    setValue exampleOnChangeState ["a"] (Sum.inl (Value.vStr "x"))
        (some { deepValidate := some true })
      = writeValue exampleOnChangeState ["a"] (Sum.inl (Value.vStr "x")) :=
  (setValue_options_spec exampleOnChangeState ["a"] (Value.vStr "x")
    { deepValidate := some true }).2 (Or.inl rfl)

/-! ## Claim C7: deep-copy behaviour of the control factory -/

/-- The factory applied to the caller's heap, caller object at location 0. -/
def exampleRefsCreate : Heap × ControlRecordRefs :=
  createControlRefs callerHeap (some 0) ValidationMode.onSubmit none

/-- Claim C7 counterexample: the record's `defaultValues` field is not an
independent copy — `defaultValues: defaultValues ?? \x7b\x7d` stores the
caller's object reference itself, so mutating the caller's original object
afterwards changes the value the record's `defaultValues` field denotes
(from `\x7b a: 1 \x7d` to `\x7b a: 2 \x7d`). -/
theorem createControl_defaultValues_aliases_caller :
    exampleRefsCreate.2.defaultValuesLoc = 0 ∧
    exampleRefsCreate.1.read exampleRefsCreate.2.defaultValuesLoc
      = Value.vObj (.fcons "a" (.vNum 1) .fnil) ∧
    (exampleRefsCreate.1.write 0 (Value.vObj (.fcons "a" (.vNum 2) .fnil))).read
        exampleRefsCreate.2.defaultValuesLoc
      = Value.vObj (.fcons "a" (.vNum 2) .fnil) := by
  refine ⟨rfl, by decide, by decide⟩

/-- Claim C7 amended: the factory deep-copies the caller's defaults into
`formValues` only — a fresh object, initially equal in value to the
caller's, that mutation of the caller's object never affects and whose
mutation never affects the caller's object — while the `defaultValues`
field stores the caller's reference itself; `fieldErrors` initializes
empty and `rules` defaults to empty when not supplied. -/
theorem createControlRefs_spec (h : Heap) (l : Nat) (mode : ValidationMode)
    (rules : Option (List (Path × ControlRule))) (hl : l < h.cells.length) :
    (createControlRefs h (some l) mode rules).2.defaultValuesLoc = l ∧
    (createControlRefs h (some l) mode rules).2.formValuesLoc ≠ l ∧
    (createControlRefs h (some l) mode rules).1.read
        (createControlRefs h (some l) mode rules).2.formValuesLoc = h.read l ∧
    (∀ v, ((createControlRefs h (some l) mode rules).1.write l v).read
          (createControlRefs h (some l) mode rules).2.formValuesLoc
        = (createControlRefs h (some l) mode rules).1.read
          (createControlRefs h (some l) mode rules).2.formValuesLoc) ∧
    (∀ v, ((createControlRefs h (some l) mode rules).1.write
            (createControlRefs h (some l) mode rules).2.formValuesLoc v).read l
        = (createControlRefs h (some l) mode rules).1.read l) ∧
    (createControlRefs h (some l) mode rules).2.fieldErrors = [] ∧
    (createControlRefs h (some l) mode rules).2.rules = rules.getD [] := by
  refine ⟨rfl, ?_, ?_, ?_, ?_, rfl, rfl⟩
  · exact (Nat.ne_of_lt hl).symm
  · exact Heap.read_alloc_self h (h.read l)
  · intro v
    exact Heap.read_write_ne _ l h.cells.length v (Nat.ne_of_lt hl)
  · intro v
    exact Heap.read_write_ne _ h.cells.length l v (Nat.ne_of_lt hl).symm

/-- Witness for the amended C7: on the concrete caller heap, `formValues`
is a fresh reference distinct from the caller's, holding an equal value. -/
theorem createControlRefs_spec_witness :
    exampleRefsCreate.2.formValuesLoc ≠ 0 ∧
    exampleRefsCreate.1.read exampleRefsCreate.2.formValuesLoc = callerHeap.read 0 := by
  have h := createControlRefs_spec callerHeap 0 ValidationMode.onSubmit none (by decide)
  exact ⟨h.2.1, h.2.2.1⟩

end VueFormController
